import Mathlib

/-!
Shallow embedding of the tarssh client registry (`src/metrics.rs`) and the
tarpit connection state machine (`src/tarpit.rs`).

Machine integers (`u64`, `usize`) are modelled as `Nat`.  The one place where
fixed-width behaviour is observable on the inputs the program can reach is the
histogram bucket computation `63 - duration.leading_zeros()`: for duration `0`
the subtraction underflows (a panic in a debug build; in a release build it
wraps and the subsequent bounds-checked array index panics), and for durations
of `2^32` or more the index is `≥ 32` and the bounds-checked array access
panics.  Both failure modes are modelled explicitly (`Option.none` /
`DisconnectResult.panicked`).  All other counter arithmetic stays far below
`2^64` in every state considered here, so plain `Nat` arithmetic coincides
with the source's `u64`/`usize` arithmetic there.  `Instant` values are
modelled as non-negative second counts and `elapsed` as truncated subtraction.
-/

namespace Tarssh

/-- `u64::MAX = 2^64 - 1`, the initial value of `minimum_connection_time`
(`std::u64::MAX` at metrics.rs line 68). -/
def U64MAX : Nat := 2 ^ 64 - 1

/-- `Client` (metrics.rs lines 47-52): the record stored in one live slot. -/
structure Client where
  start : Nat
  sent_chunks : Nat
  sent_eastereggs : Nat
  sent_banners : Nat
deriving DecidableEq, Repr

/-- `ClientMetrics` (metrics.rs lines 54-62): one aggregate-statistics view.
`connection_time_till` is the 32-entry duration histogram. -/
structure ClientMetrics where
  maximum_connection_time : Nat
  minimum_connection_time : Nat
  connection_time_till : List Nat
  connection_time : Nat
  sent_chunks_sum : Nat
  sent_eastereggs_sum : Nat
  sent_banners_sum : Nat
deriving DecidableEq, Repr

/-- `ClientMetrics::new` (metrics.rs lines 64-76). -/
def ClientMetrics.new : ClientMetrics where
  maximum_connection_time := 0
  minimum_connection_time := U64MAX
  connection_time_till := List.replicate 32 0
  connection_time := 0
  sent_chunks_sum := 0
  sent_eastereggs_sum := 0
  sent_banners_sum := 0

/-- `Token` (metrics.rs lines 500-502): an opaque slot index. -/
structure Token where
  uid : Nat
deriving DecidableEq, Repr

/-- `Metrics` (metrics.rs lines 78-84): the registry state.  The `Mutex` /
`AtomicUsize` wrappers disappear in this sequential embedding. -/
structure Metrics where
  startup : Nat
  clients : List (Option Client)
  former_metrics : ClientMetrics
  connections_count : Nat
  connections_total : Nat
deriving DecidableEq, Repr

/-- `Metrics::new` (metrics.rs lines 87-97). -/
def Metrics.new (startup : Nat) : Metrics where
  startup := startup
  clients := []
  former_metrics := ClientMetrics.new
  connections_count := 0
  connections_total := 0

/-- Bit length of a `u64` value: the largest `i` with `2^i ≤ n`, plus one
(and `0` for `n = 0`).  Written as a bounded fold so that it reduces in the
kernel; it agrees with `64 - n.leading_zeros()` for all `n < 2^64`. -/
def bitLen64 (n : Nat) : Nat :=
  (List.range 64).foldl (fun acc i => if 2 ^ i ≤ n then i + 1 else acc) 0

/-- `u64::leading_zeros` (used at metrics.rs lines 167 and 197). -/
def leadingZeros64 (n : Nat) : Nat := 64 - bitLen64 n

/-- The histogram bucket computation of metrics.rs lines 167-168 and 197-198:
`let bucket = 63 - connection_time.leading_zeros() as usize;` followed by the
bounds-checked index `connection_time_till[bucket]`.  For duration `0` the
leading-zero count is `64` and the `usize` subtraction underflows (debug
panic; release wrap followed by an out-of-range index panic); for durations
`≥ 2^32` the bucket is `≥ 32` and the index is out of range.  Both panics are
modelled as `none`. -/
def bucketIdx (connection_time : Nat) : Option Nat :=
  if leadingZeros64 connection_time ≤ 63 ∧ 63 - leadingZeros64 connection_time < 32 then
    some (63 - leadingZeros64 connection_time)
  else
    none

/-- The first half of the aggregate fold (metrics.rs lines 165-166 and
195-196): the max/min updates, which in the source happen before the
histogram update and therefore also happen on the panicking path. -/
def foldMaxMin (metrics : ClientMetrics) (connection_time : Nat) : ClientMetrics :=
  { metrics with
      maximum_connection_time := max metrics.maximum_connection_time connection_time
      minimum_connection_time := min metrics.minimum_connection_time connection_time }

/-- The second half of the aggregate fold (metrics.rs lines 168-172 and
198-202): histogram increment and counter sums, given an in-range bucket. -/
def foldSums (metrics : ClientMetrics) (connection_time : Nat) (client : Client)
    (bucket : Nat) : ClientMetrics :=
  { metrics with
      connection_time_till :=
        metrics.connection_time_till.set bucket
          (metrics.connection_time_till.getD bucket 0 + 1)
      connection_time := metrics.connection_time + connection_time
      sent_chunks_sum := metrics.sent_chunks_sum + client.sent_chunks
      sent_eastereggs_sum := metrics.sent_eastereggs_sum + client.sent_eastereggs
      sent_banners_sum := metrics.sent_banners_sum + client.sent_banners }

/-- The whole per-client fold (both halves), used by the export scan. -/
def foldClient (metrics : ClientMetrics) (connection_time : Nat) (client : Client) :
    Option ClientMetrics :=
  let metrics := foldMaxMin metrics connection_time
  match bucketIdx connection_time with
  | none => none
  | some bucket => some (foldSums metrics connection_time client bucket)

/-- The slot search of `Metrics::connect` (metrics.rs lines 127-137):
`iter().enumerate().find_map(..is_none..)`, i.e. the index of the first
empty slot. -/
def findEmpty : List (Option Client) → Option Nat
  | [] => none
  | none :: _ => some 0
  | some _ :: rest => (findEmpty rest).map (· + 1)

/-- The result of `Metrics::connect`: `Ok((connected, token))` or
`Err(connected)`. -/
inductive ConnectResult where
  | ok (connected : Nat) (token : Token)
  | rejected (connected : Nat)
deriving DecidableEq, Repr

/-- `Metrics::connect` (metrics.rs lines 103-147).  The source increments
`connections_count`, checks the limit, and decrements again on rejection; the
rejection branch below goes straight to the unchanged count, which is the
same retained value, while `Err` still carries the incremented value. -/
def Metrics.connect (self : Metrics) (max_clients : Nat) (start : Nat) :
    Metrics × ConnectResult :=
  let self1 := { self with connections_total := self.connections_total + 1 }
  let connected := self1.connections_count + 1
  if connected > max_clients then
    ({ self1 with connections_count := connected - 1 }, ConnectResult.rejected connected)
  else
    let client : Client := ⟨start, 0, 0, 0⟩
    match findEmpty self1.clients with
    | some index =>
        ({ self1 with
            connections_count := connected
            clients := self1.clients.set index (some client) },
         ConnectResult.ok connected ⟨index⟩)
    | none =>
        ({ self1 with
            connections_count := connected
            clients := self1.clients ++ [some client] },
         ConnectResult.ok connected ⟨self1.clients.length⟩)

/-- The result of `Metrics::disconnect`; `panicked` models the histogram
panic described at `bucketIdx`, which in the source happens after the count
decrement and the max/min updates but before the slot is cleared. -/
inductive DisconnectResult where
  | ok (connections : Nat) (connection_time : Nat)
  | alreadyDisconnected
  | invalidToken
  | panicked
deriving DecidableEq, Repr

/-- `Metrics::disconnect` (metrics.rs lines 149-181). -/
def Metrics.disconnect (self : Metrics) (token : Token) (now : Nat) :
    Metrics × DisconnectResult :=
  if token.uid < self.clients.length then
    match self.clients.getD token.uid none with
    | some client =>
        let connected := self.connections_count
        let connection_time := now - client.start
        let self2 := { self with
          connections_count := connected - 1
          former_metrics := foldMaxMin self.former_metrics connection_time }
        match bucketIdx connection_time with
        | none => (self2, DisconnectResult.panicked)
        | some bucket =>
            ({ self2 with
                former_metrics := foldSums self2.former_metrics connection_time client bucket
                clients := self2.clients.set token.uid none },
             DisconnectResult.ok (connected - 1) connection_time)
    | none => (self, DisconnectResult.alreadyDisconnected)
  else
    (self, DisconnectResult.invalidToken)

/-- The result of `Metrics::in_client` and of the three record operations. -/
inductive EventResult where
  | ok
  | alreadyDisconnected
  | invalidToken
deriving DecidableEq, Repr

/-- `Metrics::in_client` (metrics.rs lines 456-476). -/
def Metrics.in_client (self : Metrics) (token : Token) (action : Client → Client) :
    Metrics × EventResult :=
  if token.uid < self.clients.length then
    match self.clients.getD token.uid none with
    | some entry =>
        ({ self with clients := self.clients.set token.uid (some (action entry)) },
         EventResult.ok)
    | none => (self, EventResult.alreadyDisconnected)
  else
    (self, EventResult.invalidToken)

/-- `Metrics::sent_chunk` (metrics.rs lines 478-483). -/
def Metrics.sent_chunk (self : Metrics) (token : Token) : Metrics × EventResult :=
  self.in_client token fun client => { client with sent_chunks := client.sent_chunks + 1 }

/-- `Metrics::sent_easteregg` (metrics.rs lines 485-490). -/
def Metrics.sent_easteregg (self : Metrics) (token : Token) : Metrics × EventResult :=
  self.in_client token fun client =>
    { client with sent_eastereggs := client.sent_eastereggs + 1 }

/-- `Metrics::sent_banner` (metrics.rs lines 492-497). -/
def Metrics.sent_banner (self : Metrics) (token : Token) : Metrics × EventResult :=
  self.in_client token fun client => { client with sent_banners := client.sent_banners + 1 }

/-- One step of the export-time scan (metrics.rs lines 190-205): an occupied
slot is folded in, an empty slot is skipped, and an earlier panic
(`none`) propagates. -/
def scanStep (now : Nat) (acc : Option ClientMetrics) (entry : Option Client) :
    Option ClientMetrics :=
  match acc, entry with
  | none, _ => none
  | some metrics, none => some metrics
  | some metrics, some client => foldClient metrics (now - client.start) client

/-- The export-time scan of the live slots (metrics.rs lines 188-206): a fold
over the slot table starting from `ClientMetrics::new`, folding every occupied
slot in.  A `none` result models the panic of the histogram update inside the
fold (possible whenever a live client's elapsed duration is `0` seconds). -/
def scanClients (clients : List (Option Client)) (now : Nat) : Option ClientMetrics :=
  clients.foldl (scanStep now) (some ClientMetrics.new)

/-- One rendered cumulative histogram value (metrics.rs lines 345-376):
`bucket00` renders `connection_time_till[0]` and `bucket0k` for `k ≥ 1`
renders `connection_time_till[0..k].iter().sum()`. -/
def exportBucket (till : List Nat) (k : Nat) : Nat :=
  if k = 0 then till.getD 0 0 else (till.take k).sum

/-- The values interpolated into the exported text (metrics.rs lines
336-452), keeping the numbers and dropping the Prometheus text around them.
`client` is the freshly scanned current view and `former` the persisted
aggregate. -/
structure Snapshot where
  uptime : Nat
  connections_count : Nat
  connections_total : Nat
  client : ClientMetrics
  former : ClientMetrics
  clientBuckets : List Nat
  formerBuckets : List Nat
  total_maximum_connection_time : Nat
  total_minimum_connection_time : Nat
  total_sent_chunks_sum : Nat
  total_sent_eastereggs_sum : Nat
  total_sent_banners_sum : Nat
  total_connection_time_sum : Nat
  totalBuckets : List Nat
deriving DecidableEq, Repr

/-- `Metrics::export` (metrics.rs lines 183-454).  The method takes `&self`
and performs only lock-guarded reads and atomic loads, so its embedding
returns the state unchanged next to the snapshot; `none` models the panic of
the live-slot scan.  Line 416 of the source computes the total minimum as
`client.minimum_connection_time.min(former.maximum_connection_time)` — note
the former *maximum* — and that expression is mirrored verbatim below. -/
def Metrics.export (self : Metrics) (now : Nat) : Metrics × Option Snapshot :=
  (self,
    match scanClients self.clients now with
    | none => none
    | some client_metrics =>
        some
          { uptime := now - self.startup
            connections_count := self.connections_count
            connections_total := self.connections_total
            client := client_metrics
            former := self.former_metrics
            clientBuckets :=
              (List.range 32).map (exportBucket client_metrics.connection_time_till)
            formerBuckets :=
              (List.range 32).map (exportBucket self.former_metrics.connection_time_till)
            total_maximum_connection_time :=
              max client_metrics.maximum_connection_time
                self.former_metrics.maximum_connection_time
            total_minimum_connection_time :=
              min client_metrics.minimum_connection_time
                self.former_metrics.maximum_connection_time
            total_sent_chunks_sum :=
              client_metrics.sent_chunks_sum + self.former_metrics.sent_chunks_sum
            total_sent_eastereggs_sum :=
              client_metrics.sent_eastereggs_sum + self.former_metrics.sent_eastereggs_sum
            total_sent_banners_sum :=
              client_metrics.sent_banners_sum + self.former_metrics.sent_banners_sum
            total_connection_time_sum :=
              client_metrics.connection_time + self.former_metrics.connection_time
            totalBuckets :=
              (List.range 32).map fun k =>
                exportBucket client_metrics.connection_time_till k +
                  exportBucket self.former_metrics.connection_time_till k })

/-- One registry call in a sequential history: an admission attempt carrying
the client's start instant, or a disconnect attempt naming a slot index and
the current instant. -/
inductive Op where
  | connect (start : Nat)
  | disconnect (uid : Nat) (now : Nat)
deriving DecidableEq, Repr

/-- Success and panic counters of a sequential history. -/
structure RunStats where
  admitSucc : Nat
  discSucc : Nat
  panics : Nat
deriving DecidableEq, Repr

/-- Executing one call against the registry, recording successes and panics. -/
def step (max_clients : Nat) (m : Metrics) (st : RunStats) : Op → Metrics × RunStats
  | .connect start =>
      match m.connect max_clients start with
      | (m2, .ok _ _) => (m2, { st with admitSucc := st.admitSucc + 1 })
      | (m2, .rejected _) => (m2, st)
  | .disconnect uid now =>
      match m.disconnect ⟨uid⟩ now with
      | (m2, .ok _ _) => (m2, { st with discSucc := st.discSucc + 1 })
      | (m2, .panicked) => (m2, { st with panics := st.panics + 1 })
      | (m2, .alreadyDisconnected) => (m2, st)
      | (m2, .invalidToken) => (m2, st)

/-- Executing a sequential history of registry calls. -/
def runOps (max_clients : Nat) (m : Metrics) (st : RunStats) : List Op → Metrics × RunStats
  | [] => (m, st)
  | op :: ops =>
      let p := step max_clients m st op
      runOps max_clients p.1 p.2 ops

/-- A sequential history executed against a fresh registry. -/
def run (max_clients startup : Nat) (ops : List Op) : Metrics × RunStats :=
  runOps max_clients (Metrics.new startup) ⟨0, 0, 0⟩ ops

/-- Number of occupied slots in the slot table. -/
def countOccupied : List (Option Client) → Nat
  | [] => 0
  | none :: rest => countOccupied rest
  | some _ :: rest => countOccupied rest + 1

/-- Outcome of the timeout-bounded socket write inside `send_chunk`
(tarpit.rs lines 24-28): the write completed, the timeout elapsed first, or
the write itself returned an I/O error. -/
inductive SendOutcome where
  | writeOk
  | timedOut
  | writeFailed
deriving DecidableEq, Repr

/-- Reply of a registry record call as seen by the connection task: success
or one of the two error kinds of metrics.rs. -/
inductive RegReply where
  | ok
  | errAlready
  | errInvalid
deriving DecidableEq, Repr

/-- Observable actions of the connection task, in program order: the pacing
sleep, the timeout-bounded write, and the four registry calls. -/
inductive Action where
  | sleep (delay : Nat)
  | write (chunk : List Nat) (time_out : Nat)
  | callSentChunk
  | callSentEgg
  | callSentBanner
  | callDisconnect
deriving DecidableEq, Repr

/-- The fixed easter-egg line of tarpit.rs line 99,
`b"Meow Meow Meow, but anymeow:\r\n"`, as its 30 bytes. -/
def eggLine : List Nat :=
  [77, 101, 111, 119, 32, 77, 101, 111, 119, 32, 77, 101, 111, 119, 44, 32,
   98, 117, 116, 32, 97, 110, 121, 109, 101, 111, 119, 58, 13, 10]

/-- `send_chunk` (tarpit.rs lines 15-74) as a trace of actions plus a success
flag, driven by the environment's write outcome and the registry's reply to
`sent_chunk`.  It sleeps `delay`, performs the write bounded by `time_out`,
and then: on a completed write it records the chunk, calling `disconnect` and
failing if the record call errs; on a timeout or write error it calls
`disconnect` and fails.  The `disconnect` call happens on every failing path
of this function regardless of `disconnect`'s own result, which only shapes
the error message. -/
def sendChunkTrace (delay time_out : Nat) (chunk : List Nat)
    (outcome : SendOutcome) (reply : RegReply) : List Action × Bool :=
  let pre := [Action.sleep delay, Action.write chunk time_out]
  match outcome with
  | .writeOk =>
      match reply with
      | .ok => (pre ++ [Action.callSentChunk], true)
      | _ => (pre ++ [Action.callSentChunk, Action.callDisconnect], false)
  | _ => (pre ++ [Action.callDisconnect], false)

/-- `slice::chunks(16)` on the banner (tarpit.rs line 118), written with a
list-length fuel so that it reduces in the kernel; each step consumes at
least one element, so the length is always enough fuel. -/
def chunksGo : Nat → List Nat → List (List Nat)
  | 0, _ => []
  | _ + 1, [] => []
  | fuel + 1, x :: xs => ((x :: xs).take 16) :: chunksGo fuel ((x :: xs).drop 16)

/-- `banner.chunks(16)`. -/
def chunks16 (banner : List Nat) : List (List Nat) :=
  chunksGo banner.length banner

/-- The banner loop of tarpit.rs lines 118-141: send each 16-byte chunk in
order, stopping at the first failing `send_chunk`.  The environment list
supplies one (write outcome, record reply) pair per chunk. -/
def bannerLoop (delay time_out : Nat) :
    List (List Nat) → List (SendOutcome × RegReply) → List Action × Bool
  | [], _ => ([], true)
  | chunk :: rest, env =>
      let e := env.headD (SendOutcome.writeOk, RegReply.ok)
      let p := sendChunkTrace delay time_out chunk e.1 e.2
      if p.2 then
        let q := bannerLoop delay time_out rest env.tail
        (p.1 ++ q.1, q.2)
      else
        (p.1, false)

/-- How one pass of the `'otter` loop body (tarpit.rs lines 91-144) ends:
it falls through to the next cycle, it breaks out of the loop after a failed
`send_chunk` (timeout, write error, or `sent_chunk` registry error), or it
returns from the task via the `?` operator on a failed `sent_easteregg` or
`sent_banner` registry call. -/
inductive CycleStatus where
  | continued
  | stoppedSend
  | stoppedRecord
deriving DecidableEq, Repr

/-- One pass of the connection loop body (tarpit.rs lines 91-144), as the
trace of its actions plus how it ended.  `b` is the random byte drawn at line
92 (the easter egg is sent iff it equals `0x42`); `eggEnv` and `eggReply`
drive the easter-egg `send_chunk` and the `sent_easteregg` call; `env` drives
the banner chunks; `bannerReply` drives the `sent_banner` call. -/
def cycleTrace (delay time_out : Nat) (banner : List Nat) (b : Nat)
    (eggEnv : SendOutcome × RegReply) (eggReply : RegReply)
    (env : List (SendOutcome × RegReply)) (bannerReply : RegReply) :
    List Action × CycleStatus :=
  let eggPart : List Action × Option CycleStatus :=
    if b = 0x42 then
      let p := sendChunkTrace delay time_out eggLine eggEnv.1 eggEnv.2
      if p.2 then
        match eggReply with
        | .ok => (p.1 ++ [Action.callSentEgg], none)
        | _ => (p.1 ++ [Action.callSentEgg], some CycleStatus.stoppedRecord)
      else
        (p.1, some CycleStatus.stoppedSend)
    else
      ([], none)
  match eggPart with
  | (tr, some st) => (tr, st)
  | (tr, none) =>
      let q := bannerLoop delay time_out (chunks16 banner) env
      if q.2 then
        match bannerReply with
        | .ok => (tr ++ q.1 ++ [Action.callSentBanner], CycleStatus.continued)
        | _ => (tr ++ q.1 ++ [Action.callSentBanner], CycleStatus.stoppedRecord)
      else
        (tr ++ q.1, CycleStatus.stoppedSend)

/-- The invariant carried through a panic-free sequential history: the count
matches the number of occupied slots, balances the success counters, and
stays within the admission limit. -/
def Inv (max_clients : Nat) (m : Metrics) (st : RunStats) : Prop :=
  m.connections_count = countOccupied m.clients ∧
  m.connections_count + st.discSucc = st.admitSucc ∧
  m.connections_count ≤ max_clients

/-- A concrete registry history for C5: two clients admitted at instant 0,
disconnected at instants 3 and 10, so the former view holds minimum 3 and
maximum 10 while no client is live. -/
def c5state : Metrics :=
  (((((Metrics.new 0).connect 2 0).1.connect 2 0).1.disconnect ⟨0⟩ 3).1.disconnect ⟨1⟩ 10).1

/-- A concrete slot table for the C6 witness: slots 0 and 2 occupied, slot 1
free — the state reached after a client frees slot 1 while no other slot is
free. -/
def c6state : Metrics where
  startup := 0
  clients := [some ⟨0, 0, 0, 0⟩, none, some ⟨0, 0, 0, 0⟩]
  former_metrics := ClientMetrics.new
  connections_count := 2
  connections_total := 3

/-! ### Helper lemmas about the slot table -/

lemma findEmpty_some (l : List (Option Client)) (i : Nat) (h : findEmpty l = some i) :
    i < l.length ∧ l.getD i none = none ∧ ∀ j, j < i → (l.getD j none).isSome = true := by
  induction l generalizing i with
  | nil => simp [findEmpty] at h
  | cons hd tl ih =>
    cases hd with
    | none =>
      simp [findEmpty] at h
      subst h
      exact ⟨by simp, by simp, fun j hj => absurd hj (Nat.not_lt_zero j)⟩
    | some c =>
      simp only [findEmpty, Option.map_eq_some'] at h
      obtain ⟨k, hk, rfl⟩ := h
      obtain ⟨h1, h2, h3⟩ := ih k hk
      refine ⟨by simpa using h1, by simpa using h2, ?_⟩
      intro j hj
      cases j with
      | zero => simp
      | succ j => simpa using h3 j (by omega)

lemma findEmpty_none (l : List (Option Client)) (h : findEmpty l = none) :
    ∀ j, j < l.length → (l.getD j none).isSome = true := by
  induction l with
  | nil => simp
  | cons hd tl ih =>
    cases hd with
    | none => simp [findEmpty] at h
    | some c =>
      simp only [findEmpty, Option.map_eq_none'] at h
      intro j hj
      cases j with
      | zero => simp
      | succ j => simpa using ih h j (by simpa using hj)

lemma countOccupied_pos (l : List (Option Client)) (i : Nat) (c : Client)
    (h : l.getD i none = some c) : 0 < countOccupied l := by
  induction l generalizing i with
  | nil => simp at h
  | cons hd tl ih =>
    cases hd with
    | some c2 => simp [countOccupied]
    | none =>
      cases i with
      | zero => simp at h
      | succ i =>
        simp only [countOccupied]
        exact ih i (by simpa using h)

lemma countOccupied_set_none (l : List (Option Client)) (i : Nat) (c : Client)
    (h : l.getD i none = some c) :
    countOccupied (l.set i none) + 1 = countOccupied l := by
  induction l generalizing i with
  | nil => simp at h
  | cons hd tl ih =>
    cases i with
    | zero =>
      simp only [List.getD_cons_zero] at h
      subst h
      simp [countOccupied]
    | succ i =>
      cases hd with
      | none =>
        simp only [List.set_cons_succ, countOccupied]
        exact ih i (by simpa using h)
      | some c2 =>
        simp only [List.set_cons_succ, countOccupied]
        have := ih i (by simpa using h)
        omega

lemma countOccupied_set_some (l : List (Option Client)) (i : Nat) (c : Client)
    (h : l.getD i none = none) (hi : i < l.length) :
    countOccupied (l.set i (some c)) = countOccupied l + 1 := by
  induction l generalizing i with
  | nil => simp at hi
  | cons hd tl ih =>
    cases i with
    | zero =>
      simp only [List.getD_cons_zero] at h
      subst h
      simp [countOccupied]
    | succ i =>
      cases hd with
      | none =>
        simp only [List.set_cons_succ, countOccupied]
        exact ih i (by simpa using h) (by simpa using hi)
      | some c2 =>
        simp only [List.set_cons_succ, countOccupied]
        have := ih i (by simpa using h) (by simpa using hi)
        omega

lemma countOccupied_append_some (l : List (Option Client)) (c : Client) :
    countOccupied (l ++ [some c]) = countOccupied l + 1 := by
  induction l with
  | nil => simp [countOccupied]
  | cons hd tl ih => cases hd <;> simp [countOccupied, ih]

lemma getD_set_self (l : List (Option Client)) (i : Nat) (a : Option Client)
    (hi : i < l.length) : (l.set i a).getD i none = a := by
  induction l generalizing i with
  | nil => simp at hi
  | cons hd tl ih =>
    cases i with
    | zero => simp
    | succ i => simpa using ih i (by simpa using hi)

lemma getD_append_length (l : List (Option Client)) (a : Option Client) :
    (l ++ [a]).getD l.length none = a := by
  induction l with
  | nil => simp
  | cons hd tl ih => simp [ih]

/-! ### The count invariant of sequential histories -/

lemma step_panics_le (max_clients : Nat) (m : Metrics) (st : RunStats) (op : Op) :
    st.panics ≤ (step max_clients m st op).2.panics := by
  cases op with
  | connect s =>
    simp only [step]
    split <;> simp
  | disconnect uid now =>
    simp only [step]
    split <;> simp

lemma runOps_cons (max_clients : Nat) (m : Metrics) (st : RunStats) (op : Op)
    (ops : List Op) :
    runOps max_clients m st (op :: ops)
      = runOps max_clients (step max_clients m st op).1 (step max_clients m st op).2 ops :=
  rfl

lemma runOps_panics_le (max_clients : Nat) (ops : List Op) :
    ∀ (m : Metrics) (st : RunStats), st.panics ≤ (runOps max_clients m st ops).2.panics := by
  induction ops with
  | nil => intro m st; simp [runOps]
  | cons op ops ih =>
    intro m st
    rw [runOps_cons]
    exact le_trans (step_panics_le max_clients m st op) (ih _ _)

lemma step_inv (max_clients : Nat) (m : Metrics) (st : RunStats) (op : Op)
    (hInv : Inv max_clients m st)
    (hnp : (step max_clients m st op).2.panics = st.panics) :
    Inv max_clients (step max_clients m st op).1 (step max_clients m st op).2 := by
  obtain ⟨h1, h2, h3⟩ := hInv
  cases op with
  | connect s =>
    simp only [step]
    by_cases hgt : m.connections_count + 1 > max_clients
    · simp only [Metrics.connect, hgt, if_true, gt_iff_lt]
      simp only [Inv]
      refine ⟨by simpa using h1, by simpa using h2, by simpa using h3⟩
    · cases hf : findEmpty m.clients with
      | some i =>
        obtain ⟨hilt, hinone, _⟩ := findEmpty_some m.clients i hf
        have hset := countOccupied_set_some m.clients i ⟨s, 0, 0, 0⟩ hinone hilt
        simp only [Metrics.connect, hgt, if_false, hf]
        simp only [Inv]
        refine ⟨by omega, by omega, by omega⟩
      | none =>
        have happ := countOccupied_append_some m.clients ⟨s, 0, 0, 0⟩
        simp only [Metrics.connect, hgt, if_false, hf]
        simp only [Inv]
        refine ⟨by omega, by omega, by omega⟩
  | disconnect uid now =>
    simp only [step]
    by_cases hlt : uid < m.clients.length
    · cases hc : m.clients.getD uid none with
      | none =>
        simp only [Metrics.disconnect, hlt, if_true, hc]
        exact ⟨h1, h2, h3⟩
      | some client =>
        cases hb : bucketIdx (now - client.start) with
        | none =>
          exfalso
          simp only [step, Metrics.disconnect, hlt, if_true, hc, hb] at hnp
          omega
        | some bucket =>
          have hpos : 0 < countOccupied m.clients := countOccupied_pos m.clients uid client hc
          have hset := countOccupied_set_none m.clients uid client hc
          simp only [Metrics.disconnect, hlt, if_true, hc, hb]
          simp only [Inv]
          refine ⟨by omega, by omega, by omega⟩
    · simp only [Metrics.disconnect, hlt, if_false]
      exact ⟨h1, h2, h3⟩

lemma runOps_inv (max_clients : Nat) (ops : List Op) :
    ∀ (m : Metrics) (st : RunStats), Inv max_clients m st →
      (runOps max_clients m st ops).2.panics = st.panics →
      Inv max_clients (runOps max_clients m st ops).1 (runOps max_clients m st ops).2 := by
  induction ops with
  | nil => intro m st h _; simpa [runOps] using h
  | cons op ops ih =>
    intro m st hInv hnp
    rw [runOps_cons] at hnp ⊢
    have hle1 := step_panics_le max_clients m st op
    have hle2 := runOps_panics_le max_clients ops
      (step max_clients m st op).1 (step max_clients m st op).2
    have hstep : (step max_clients m st op).2.panics = st.panics := by omega
    exact ih _ _ (step_inv max_clients m st op hInv hstep) (by omega)

/-! ### Helper lemmas about the connection loop -/

lemma sendChunk_disc (delay time_out : Nat) (chunk : List Nat) (outcome : SendOutcome)
    (reply : RegReply) :
    (Action.callDisconnect ∈ (sendChunkTrace delay time_out chunk outcome reply).1)
      ↔ (sendChunkTrace delay time_out chunk outcome reply).2 = false := by
  cases outcome <;> cases reply <;> simp [sendChunkTrace]

lemma bannerLoop_disc (delay time_out : Nat) (chunks : List (List Nat)) :
    ∀ env, (Action.callDisconnect ∈ (bannerLoop delay time_out chunks env).1)
      ↔ (bannerLoop delay time_out chunks env).2 = false := by
  induction chunks with
  | nil => intro env; simp [bannerLoop]
  | cons chunk rest ih =>
    intro env
    simp only [bannerLoop]
    have hmem := sendChunk_disc delay time_out chunk
      (env.headD (SendOutcome.writeOk, RegReply.ok)).1
      (env.headD (SendOutcome.writeOk, RegReply.ok)).2
    generalize hsc : sendChunkTrace delay time_out chunk
        (env.headD (SendOutcome.writeOk, RegReply.ok)).1
        (env.headD (SendOutcome.writeOk, RegReply.ok)).2 = p at hmem ⊢
    rcases p with ⟨tr, ok⟩
    cases ok with
    | false => simp [hmem]
    | true => simp [List.mem_append, hmem, ih env.tail]

lemma bannerLoop_allOk (delay time_out : Nat) (chunks : List (List Nat)) :
    bannerLoop delay time_out chunks
        (List.replicate chunks.length (SendOutcome.writeOk, RegReply.ok))
      = (chunks.flatMap fun chunk =>
          [Action.sleep delay, Action.write chunk time_out, Action.callSentChunk], true) := by
  induction chunks with
  | nil => rfl
  | cons chunk rest ih =>
    simp only [List.length_cons, List.replicate_succ, bannerLoop, List.headD_cons,
      List.tail_cons, sendChunkTrace, ih, List.flatMap_cons]
    simp

lemma chunksGo_length_le (fuel : Nat) :
    ∀ l : List Nat, ((chunksGo fuel l).all fun chunk => decide (chunk.length ≤ 16)) = true := by
  induction fuel with
  | zero => intro l; simp [chunksGo]
  | succ fuel ih =>
    intro l
    cases l with
    | nil => simp [chunksGo]
    | cons x xs =>
      simp only [chunksGo, List.all_cons, Bool.and_eq_true, decide_eq_true_eq]
      exact ⟨by simp [List.length_take], ih _⟩

/-! ### Helper lemmas about export and the former view -/

lemma connect_former (m : Metrics) (max_clients start : Nat) :
    (m.connect max_clients start).1.former_metrics = m.former_metrics := by
  simp only [Metrics.connect]
  by_cases hgt : m.connections_count + 1 > max_clients
  · simp [hgt]
  · simp only [hgt]
    cases hf : findEmpty m.clients <;> simp [hf]

lemma step_connect_former (max_clients : Nat) (m : Metrics) (st : RunStats) (s : Nat) :
    (step max_clients m st (Op.connect s)).1.former_metrics = m.former_metrics := by
  have h := connect_former m max_clients s
  simp only [step]
  split
  · next m2 c t heq => rw [heq] at h; exact h
  · next m2 c heq => rw [heq] at h; exact h

lemma step_discSucc_le (max_clients : Nat) (m : Metrics) (st : RunStats) (op : Op) :
    st.discSucc ≤ (step max_clients m st op).2.discSucc := by
  cases op with
  | connect s =>
    simp only [step]
    split <;> simp
  | disconnect uid now =>
    simp only [step]
    split <;> simp

lemma runOps_discSucc_le (max_clients : Nat) (ops : List Op) :
    ∀ (m : Metrics) (st : RunStats),
      st.discSucc ≤ (runOps max_clients m st ops).2.discSucc := by
  induction ops with
  | nil => intro m st; simp [runOps]
  | cons op ops ih =>
    intro m st
    rw [runOps_cons]
    exact le_trans (step_discSucc_le max_clients m st op) (ih _ _)

lemma step_former_no_fold (max_clients : Nat) (m : Metrics) (st : RunStats) (op : Op)
    (hd : (step max_clients m st op).2.discSucc = st.discSucc)
    (hp : (step max_clients m st op).2.panics = st.panics) :
    (step max_clients m st op).1.former_metrics = m.former_metrics := by
  cases op with
  | connect s => exact step_connect_former max_clients m st s
  | disconnect uid now =>
    simp only [step]
    by_cases hlt : uid < m.clients.length
    · cases hc : m.clients.getD uid none with
      | none => simp only [Metrics.disconnect, hlt, if_true, hc]
      | some client =>
        cases hb : bucketIdx (now - client.start) with
        | none =>
          exfalso
          simp only [step, Metrics.disconnect, hlt, if_true, hc, hb] at hp
          omega
        | some bucket =>
          exfalso
          simp only [step, Metrics.disconnect, hlt, if_true, hc, hb] at hd
          omega
    · simp only [Metrics.disconnect, hlt, if_false]

lemma runOps_former_no_fold (max_clients : Nat) (ops : List Op) :
    ∀ (m : Metrics) (st : RunStats),
      (runOps max_clients m st ops).2.discSucc = st.discSucc →
      (runOps max_clients m st ops).2.panics = st.panics →
      (runOps max_clients m st ops).1.former_metrics = m.former_metrics := by
  induction ops with
  | nil => intro m st _ _; simp [runOps]
  | cons op ops ih =>
    intro m st hd hp
    rw [runOps_cons] at hd hp ⊢
    have hd1 := step_discSucc_le max_clients m st op
    have hd2 := runOps_discSucc_le max_clients ops
      (step max_clients m st op).1 (step max_clients m st op).2
    have hp1 := step_panics_le max_clients m st op
    have hp2 := runOps_panics_le max_clients ops
      (step max_clients m st op).1 (step max_clients m st op).2
    rw [ih _ _ (by omega) (by omega)]
    exact step_former_no_fold max_clients m st op (by omega) (by omega)

lemma scanClients_all_none (clients : List (Option Client)) (now : Nat)
    (h : clients.all Option.isNone = true) :
    scanClients clients now = some ClientMetrics.new := by
  have key : ∀ (l : List (Option Client)), l.all Option.isNone = true →
      ∀ acc : ClientMetrics, l.foldl (scanStep now) (some acc) = some acc := by
    intro l
    induction l with
    | nil => intro _ acc; rfl
    | cons hd tl ih =>
      intro hall acc
      simp only [List.all_cons, Bool.and_eq_true] at hall
      cases hd with
      | some c => simp [Option.isNone] at hall
      | none =>
        simp only [List.foldl_cons, scanStep]
        exact ih hall.2 acc
  exact key clients h ClientMetrics.new

/-! ### Claim C1 -/

/-- C1 counterexample: the claim fails as stated.  In the two-call history
"admit at instant 0, then disconnect slot 0 at instant 0" the disconnect
reaches the histogram update with duration 0 and panics after having already
decremented the count, so the count is 0 while there is 1 admit success and 0
disconnect successes — the count does not equal the difference of the success
counts. -/
theorem C1_counterexample :
    (run 1 0 [Op.connect 0, Op.disconnect 0 0]).2.admitSucc = 1
    ∧ (run 1 0 [Op.connect 0, Op.disconnect 0 0]).2.discSucc = 0
    ∧ (run 1 0 [Op.connect 0, Op.disconnect 0 0]).1.connections_count = 0
    ∧ (run 1 0 [Op.connect 0, Op.disconnect 0 0]).1.connections_count ≠
        (run 1 0 [Op.connect 0, Op.disconnect 0 0]).2.admitSucc
          - (run 1 0 [Op.connect 0, Op.disconnect 0 0]).2.discSucc := by
  decide

/-- C1 (amended): for every finite sequential history of Admit and Disconnect
calls in which no disconnect panics in the histogram update, the retained
connection count equals the number of Admit successes minus the number of
Disconnect successes (stated additively over `Nat`, which also expresses that
it is never negative), and it never exceeds `max_clients` as a retained
value. -/
theorem C1_count_balance (max_clients startup : Nat) (ops : List Op)
    (hnp : (run max_clients startup ops).2.panics = 0) :
    (run max_clients startup ops).1.connections_count
        + (run max_clients startup ops).2.discSucc
      = (run max_clients startup ops).2.admitSucc
    ∧ (run max_clients startup ops).1.connections_count ≤ max_clients := by
  have h0 : Inv max_clients (Metrics.new startup) ⟨0, 0, 0⟩ :=
    ⟨rfl, rfl, Nat.zero_le _⟩
  have h := runOps_inv max_clients ops (Metrics.new startup) ⟨0, 0, 0⟩ h0 (by exact hnp)
  exact ⟨h.2.1, h.2.2⟩

/-- C1 witness: a concrete panic-free history (admit, disconnect after 5
seconds, admit again) at `max_clients = 1`, instantiating `C1_count_balance`. -/
theorem C1_count_balance_witness :
    (run 1 0 [Op.connect 0, Op.disconnect 0 5, Op.connect 6]).2.panics = 0
    ∧ ((run 1 0 [Op.connect 0, Op.disconnect 0 5, Op.connect 6]).1.connections_count
          + (run 1 0 [Op.connect 0, Op.disconnect 0 5, Op.connect 6]).2.discSucc
        = (run 1 0 [Op.connect 0, Op.disconnect 0 5, Op.connect 6]).2.admitSucc
       ∧ (run 1 0 [Op.connect 0, Op.disconnect 0 5, Op.connect 6]).1.connections_count ≤ 1) :=
  ⟨by decide, C1_count_balance 1 0 [Op.connect 0, Op.disconnect 0 5, Op.connect 6] (by decide)⟩

/-! ### Claim C2 -/

/-- C2: durations 1, 2, 3, 1023, 1024 do land in buckets 0, 1, 1, 9, 10, but
the bucket computation does not succeed on every u64 duration: for duration 0
it does not produce bucket 0, and for duration `2^32` it does not stay within
[0, 31] — both panic (`none`), and a disconnect with duration 0 panics
(observable after an admit at instant 0 followed by a disconnect at
instant 0). -/
theorem C2_bucket_computation :
    bucketIdx 0 = none
    ∧ bucketIdx (2 ^ 32) = none
    ∧ [bucketIdx 1, bucketIdx 2, bucketIdx 3, bucketIdx 1023, bucketIdx 1024]
        = [some 0, some 1, some 1, some 9, some 10]
    ∧ (((Metrics.new 0).connect 1 0).1.disconnect ⟨0⟩ 0).2 = DisconnectResult.panicked
    ∧ ((run 1 0 [Op.connect 0]).1.export 0).2 = none := by
  decide

/-! ### Claim C3 -/

/-- C3 counterexample: with `max_clients = 0` an admission attempt against a
fresh registry is rejected carrying 1 — the transient incremented value — while
the post-rollback count is 0, so the rejection does not carry the
post-rollback count. -/
theorem C3_counterexample :
    ((Metrics.new 0).connect 0 5).2 = ConnectResult.rejected 1
    ∧ ((Metrics.new 0).connect 0 5).1.connections_count = 0
    ∧ (1 : Nat) ≠ 0 := by
  decide

/-- C3 (amended): every Admit increments the total-attempts counter exactly
once regardless of outcome; when the incremented current-count exceeds
`max_clients` the current-count increment is rolled back (the retained count
is unchanged), but the rejection returned to the caller carries the transient
incremented value, i.e. the count before the rollback. -/
theorem C3_attempts_and_rejection (m : Metrics) (max_clients start : Nat) :
    (m.connect max_clients start).1.connections_total = m.connections_total + 1
    ∧ (m.connections_count + 1 > max_clients →
        (m.connect max_clients start).2 = ConnectResult.rejected (m.connections_count + 1)
        ∧ (m.connect max_clients start).1.connections_count = m.connections_count) := by
  constructor
  · simp only [Metrics.connect]
    by_cases hgt : m.connections_count + 1 > max_clients
    · simp [hgt]
    · simp only [hgt]
      cases hf : findEmpty m.clients <;> simp [hf]
  · intro hgt
    simp [Metrics.connect, hgt]

/-- C3 witness: `C3_attempts_and_rejection` instantiated at a fresh registry
with `max_clients = 0`. -/
theorem C3_attempts_and_rejection_witness :
    ((Metrics.new 0).connect 0 5).1.connections_total
        = (Metrics.new 0).connections_total + 1
    ∧ (((Metrics.new 0).connect 0 5).2
          = ConnectResult.rejected ((Metrics.new 0).connections_count + 1)
       ∧ ((Metrics.new 0).connect 0 5).1.connections_count
          = (Metrics.new 0).connections_count) :=
  ⟨(C3_attempts_and_rejection (Metrics.new 0) 0 5).1,
   (C3_attempts_and_rejection (Metrics.new 0) 0 5).2 (by decide)⟩

/-! ### Claim C4 -/

/-- C4: whenever the addressed slot holds no client — which covers both an
out-of-range token index and an in-range but empty slot — Disconnect and all
three record operations return InvalidToken (out of range) or
AlreadyDisconnected (in range, empty) and leave the registry state completely
unchanged. -/
theorem C4_errors_no_mutation (m : Metrics) (t : Token) (now : Nat)
    (h : m.clients.getD t.uid none = none) :
    m.disconnect t now
      = (m, if t.uid < m.clients.length then DisconnectResult.alreadyDisconnected
            else DisconnectResult.invalidToken)
    ∧ m.sent_chunk t
      = (m, if t.uid < m.clients.length then EventResult.alreadyDisconnected
            else EventResult.invalidToken)
    ∧ m.sent_easteregg t
      = (m, if t.uid < m.clients.length then EventResult.alreadyDisconnected
            else EventResult.invalidToken)
    ∧ m.sent_banner t
      = (m, if t.uid < m.clients.length then EventResult.alreadyDisconnected
            else EventResult.invalidToken) := by
  by_cases hlt : t.uid < m.clients.length
  · have h2 : m.clients[t.uid] = none := by
      rw [← List.getD_eq_getElem m.clients none hlt]
      exact h
    simp [Metrics.disconnect, Metrics.sent_chunk, Metrics.sent_easteregg,
      Metrics.sent_banner, Metrics.in_client, hlt, h2]
  · simp [Metrics.disconnect, Metrics.sent_chunk, Metrics.sent_easteregg,
      Metrics.sent_banner, Metrics.in_client, hlt]

/-- C4 witness: `C4_errors_no_mutation` at a fresh registry (empty slot
table) with token index 0, the out-of-range case. -/
theorem C4_errors_no_mutation_witness :
    (Metrics.new 0).disconnect ⟨0⟩ 7 = (Metrics.new 0, DisconnectResult.invalidToken)
    ∧ (Metrics.new 0).sent_chunk ⟨0⟩ = (Metrics.new 0, EventResult.invalidToken)
    ∧ (Metrics.new 0).sent_easteregg ⟨0⟩ = (Metrics.new 0, EventResult.invalidToken)
    ∧ (Metrics.new 0).sent_banner ⟨0⟩ = (Metrics.new 0, EventResult.invalidToken) := by
  have h := C4_errors_no_mutation (Metrics.new 0) ⟨0⟩ 7 (by decide)
  simp only [Metrics.new, List.length_nil, lt_self_iff_false, if_false] at h
  exact h

/-! ### Claim C5 -/

/-- C5: in the export of `c5state` the total minimum connection time is 10
— `min` of the current minimum and the former *maximum* (metrics.rs line
416) — whereas the minimum of the current and former minima is 3, so the
exported total minimum is not the minimum of the two view minima.  (The
current view here is empty, so its minimum is the `2^64 - 1` sentinel.) -/
theorem C5_total_min_uses_former_max :
    c5state.former_metrics.minimum_connection_time = 3
    ∧ c5state.former_metrics.maximum_connection_time = 10
    ∧ ((c5state.export 10).2.map fun s => s.total_minimum_connection_time) = some 10
    ∧ ((c5state.export 10).2.map fun s =>
        min s.client.minimum_connection_time s.former.minimum_connection_time) = some 3
    ∧ (10 : Nat) ≠ 3 := by
  decide

/-! ### Claim C6 -/

/-- C6: every successful Admit allocates either the lowest-index empty slot
(every slot below the token's index is occupied, and the token's slot itself
was empty when it is in range) or, when the token's index equals the old
table length, a newly appended slot; in both cases the token's slot holds
the fresh client record afterwards. -/
theorem C6_lowest_empty_slot (m : Metrics) (max_clients start : Nat) (m2 : Metrics)
    (connected : Nat) (token : Token)
    (h : m.connect max_clients start = (m2, ConnectResult.ok connected token)) :
    token.uid ≤ m.clients.length
    ∧ (∀ j, j < token.uid → (m.clients.getD j none).isSome = true)
    ∧ (token.uid < m.clients.length → m.clients.getD token.uid none = none)
    ∧ m2.clients.getD token.uid none = some ⟨start, 0, 0, 0⟩ := by
  simp only [Metrics.connect] at h
  by_cases hgt : m.connections_count + 1 > max_clients
  · simp [hgt] at h
  · simp only [hgt, if_false] at h
    cases hf : findEmpty m.clients with
    | some i =>
      rw [hf] at h
      simp only [Prod.mk.injEq, ConnectResult.ok.injEq] at h
      obtain ⟨hm2, _, htok⟩ := h
      obtain ⟨hilt, hinone, hbelow⟩ := findEmpty_some m.clients i hf
      subst htok
      refine ⟨Nat.le_of_lt hilt, hbelow, fun _ => hinone, ?_⟩
      rw [← hm2]
      exact getD_set_self m.clients i (some ⟨start, 0, 0, 0⟩) hilt
    | none =>
      rw [hf] at h
      simp only [Prod.mk.injEq, ConnectResult.ok.injEq] at h
      obtain ⟨hm2, _, htok⟩ := h
      subst htok
      refine ⟨Nat.le_refl _, ?_, ?_, ?_⟩
      · intro j hj
        exact findEmpty_none m.clients hf j hj
      · intro hcontr
        exact absurd hcontr (lt_irrefl _)
      · rw [← hm2]
        exact getD_append_length m.clients (some ⟨start, 0, 0, 0⟩)

/-- C6 witness: `C6_lowest_empty_slot` at `c6state` — admitting while only
slot 1 is free yields the token for index 1, whose slot was empty before and
holds the new client afterwards. -/
theorem C6_lowest_empty_slot_witness :
    c6state.clients.getD 1 none = none
    ∧ (c6state.connect 3 7).1.clients.getD 1 none = some ⟨7, 0, 0, 0⟩ := by
  have h := C6_lowest_empty_slot c6state 3 7 (c6state.connect 3 7).1 3 ⟨1⟩ (by decide)
  exact ⟨h.2.2.1 (by decide), h.2.2.2⟩

/-! ### Claim C9 -/

/-- C9: Export leaves the registry state — every counter, slot and aggregate
statistic — unchanged, and it is idempotent: a second Export on the registry
state returned by the first, at the same instant, yields the identical
snapshot. -/
theorem C9_export_readonly_idempotent (m : Metrics) (now : Nat) :
    (m.export now).1 = m
    ∧ ((m.export now).1.export now).2 = (m.export now).2 :=
  ⟨rfl, rfl⟩

/-! ### Claim C7 -/

/-- C7 counterexample: a loop pass in which the easter-egg chunk is sent and
recorded successfully but `sent_easteregg` reports InvalidToken terminates
the task (via the `?` operator at tarpit.rs line 103) with no `disconnect`
call anywhere in its trace — a terminal path that skips Disconnect. -/
theorem C7_counterexample :
    (cycleTrace 1 1 [] 0x42 (SendOutcome.writeOk, RegReply.ok) RegReply.errInvalid []
        RegReply.ok).2 = CycleStatus.stoppedRecord
    ∧ Action.callDisconnect ∉
        (cycleTrace 1 1 [] 0x42 (SendOutcome.writeOk, RegReply.ok) RegReply.errInvalid []
          RegReply.ok).1 := by
  decide

/-- C7 (amended): the loop ends only by a failed `send_chunk` (chunk timeout,
chunk write error, or a `sent_chunk` registry error) or by a
`sent_easteregg`/`sent_banner` registry error propagated with `?`.  On every
`send_chunk`-failure termination the task has called Disconnect before
terminating, but on every `?`-propagated record-error termination it
terminates without calling Disconnect; a pass that completes calls no
Disconnect either. -/
theorem C7_disconnect_coverage (delay time_out : Nat) (banner : List Nat) (b : Nat)
    (eggEnv : SendOutcome × RegReply) (eggReply : RegReply)
    (env : List (SendOutcome × RegReply)) (bannerReply : RegReply) :
    ((cycleTrace delay time_out banner b eggEnv eggReply env bannerReply).2
        = CycleStatus.stoppedSend →
      Action.callDisconnect
        ∈ (cycleTrace delay time_out banner b eggEnv eggReply env bannerReply).1)
    ∧ ((cycleTrace delay time_out banner b eggEnv eggReply env bannerReply).2
        = CycleStatus.stoppedRecord →
      Action.callDisconnect
        ∉ (cycleTrace delay time_out banner b eggEnv eggReply env bannerReply).1)
    ∧ ((cycleTrace delay time_out banner b eggEnv eggReply env bannerReply).2
        = CycleStatus.continued →
      Action.callDisconnect
        ∉ (cycleTrace delay time_out banner b eggEnv eggReply env bannerReply).1) := by
  have hEgg := sendChunk_disc delay time_out eggLine eggEnv.1 eggEnv.2
  have hBan := bannerLoop_disc delay time_out (chunks16 banner) env
  simp only [cycleTrace]
  generalize hq : bannerLoop delay time_out (chunks16 banner) env = q at hBan
  generalize hp : sendChunkTrace delay time_out eggLine eggEnv.1 eggEnv.2 = p at hEgg
  rcases q with ⟨btr, bok⟩
  rcases p with ⟨etr, eok⟩
  have hq1 : (btr, bok).1 = btr := rfl
  have hq2 : (btr, bok).2 = bok := rfl
  rw [hq1, hq2] at hBan
  have hp1 : (etr, eok).1 = etr := rfl
  have hp2 : (etr, eok).2 = eok := rfl
  rw [hp1, hp2] at hEgg
  by_cases hb : b = 0x42
  · rw [if_pos hb]
    cases eok with
    | false => simp [hEgg.mpr rfl]
    | true =>
      have hnotE : Action.callDisconnect ∉ etr := fun hin => nomatch hEgg.mp hin
      cases eggReply with
      | errAlready => simp [hnotE]
      | errInvalid => simp [hnotE]
      | ok =>
        cases bok with
        | false => simp [hBan.mpr rfl]
        | true =>
          have hnotB : Action.callDisconnect ∉ btr := fun hin => nomatch hBan.mp hin
          cases bannerReply with
          | ok => simp [hnotE, hnotB]
          | errAlready => simp [hnotE, hnotB]
          | errInvalid => simp [hnotE, hnotB]
  · rw [if_neg hb]
    cases bok with
    | false => simp [hBan.mpr rfl]
    | true =>
      have hnotB : Action.callDisconnect ∉ btr := fun hin => nomatch hBan.mp hin
      cases bannerReply with
      | ok => simp [hnotB]
      | errAlready => simp [hnotB]
      | errInvalid => simp [hnotB]

/-- C7 witness: `C7_disconnect_coverage` instantiated at a pass whose single
banner chunk times out — the trace of that terminal pass contains the
Disconnect call. -/
theorem C7_disconnect_coverage_witness :
    Action.callDisconnect ∈
      (cycleTrace 1 1 [3] 7 (SendOutcome.writeOk, RegReply.ok) RegReply.ok
        [(SendOutcome.timedOut, RegReply.ok)] RegReply.ok).1 :=
  (C7_disconnect_coverage 1 1 [3] 7 (SendOutcome.writeOk, RegReply.ok) RegReply.ok
    [(SendOutcome.timedOut, RegReply.ok)] RegReply.ok).1 (by decide)

/-! ### Claim C10 -/

/-- C10 counterexample: in the history "admit at instant 0, disconnect slot 0
at instant 0" the disconnect panics (so there is no successful Disconnect),
yet its max/min updates have already run, leaving the former minimum at 0
instead of the `2^64 - 1` sentinel. -/
theorem C10_counterexample :
    (run 1 0 [Op.connect 0, Op.disconnect 0 0]).2.discSucc = 0
    ∧ (run 1 0 [Op.connect 0, Op.disconnect 0 0]).1.former_metrics.minimum_connection_time = 0
    ∧ (0 : Nat) ≠ U64MAX := by
  decide

/-- C10 (amended): as long as no Disconnect attempt has reached the aggregate
fold — no successful Disconnect and no panicked one; attempts that fail with
InvalidToken or AlreadyDisconnected are allowed, since they do not touch the
aggregate — the former minimum connection time is the initial sentinel
`2^64 - 1` and every completed Export reports that value as the former
minimum; likewise any Export of a registry whose slots are all empty reports
`2^64 - 1` as the current-view minimum. -/
theorem C10_sentinel_minimum :
    (∀ (max_clients startup : Nat) (ops : List Op),
        (run max_clients startup ops).2.discSucc = 0 →
        (run max_clients startup ops).2.panics = 0 →
        (run max_clients startup ops).1.former_metrics.minimum_connection_time = U64MAX
        ∧ ∀ now : Nat,
            ((((run max_clients startup ops).1.export now).2.map fun s =>
                s.former.minimum_connection_time).getD U64MAX) = U64MAX)
    ∧ ∀ (m : Metrics) (now : Nat), m.clients.all Option.isNone = true →
        (((m.export now).2.map fun s => s.client.minimum_connection_time).getD U64MAX)
          = U64MAX := by
  constructor
  · intro max_clients startup ops hd hp
    have hform : (run max_clients startup ops).1.former_metrics = ClientMetrics.new :=
      runOps_former_no_fold max_clients ops (Metrics.new startup) ⟨0, 0, 0⟩ hd hp
    constructor
    · rw [hform]
      rfl
    · intro now
      simp only [Metrics.export]
      cases hscan : scanClients (run max_clients startup ops).1.clients now with
      | none => simp [hscan]
      | some cm => simp [hscan, hform, ClientMetrics.new]
  · intro m now hall
    simp only [Metrics.export, scanClients_all_none m.clients now hall]
    rfl

/-! ### Claim C8 -/

set_option maxRecDepth 8192 in
/-- C8: in a loop pass in which every write completes and every record call
succeeds, the trace is: the easter-egg chunk send followed by its record
calls first — taken for exactly one of the 256 possible random byte values,
namely 0x42 — then the banner as the chunk list `chunks16 banner` (each chunk
at most 16 bytes, the split being at fixed offset 16), where every chunk send
is a sleep of the configured delay immediately followed by the write bounded
by the configured timeout, then the banner record call, and the loop
continues. -/
theorem C8_cycle_structure (delay time_out : Nat) (banner : List Nat) (b : Nat) :
    cycleTrace delay time_out banner b (SendOutcome.writeOk, RegReply.ok) RegReply.ok
        (List.replicate (chunks16 banner).length (SendOutcome.writeOk, RegReply.ok))
        RegReply.ok
      = ((if b = 0x42 then
            [Action.sleep delay, Action.write eggLine time_out,
             Action.callSentChunk, Action.callSentEgg]
          else []) ++
         ((chunks16 banner).flatMap fun chunk =>
            [Action.sleep delay, Action.write chunk time_out, Action.callSentChunk]) ++
         [Action.callSentBanner],
         CycleStatus.continued)
    ∧ ((chunks16 banner).all fun chunk => decide (chunk.length ≤ 16)) = true
    ∧ (Finset.filter
        (fun x : Fin 256 =>
          (cycleTrace 1 1 [] x.val (SendOutcome.writeOk, RegReply.ok) RegReply.ok []
            RegReply.ok).1.head? = some (Action.sleep 1))
        Finset.univ).card = 1 := by
  refine ⟨?_, chunksGo_length_le banner.length banner, by decide⟩
  by_cases hb : b = 0x42
  · simp [cycleTrace, hb, sendChunkTrace, bannerLoop_allOk]
  · simp [cycleTrace, hb, bannerLoop_allOk]

/-- C10 witness: `C10_sentinel_minimum` at a history containing one admit and
one Disconnect attempt that fails with InvalidToken (slot index 5 out of
range) — no attempt reaches the fold, so the former minimum is still the
sentinel — and at a fresh registry exported at instant 3 (current-view
minimum is the sentinel). -/
theorem C10_sentinel_minimum_witness :
    (run 1 0 [Op.connect 0, Op.disconnect 5 3]).1.former_metrics.minimum_connection_time
        = U64MAX
    ∧ ((((Metrics.new 0).export 3).2.map fun s => s.client.minimum_connection_time).getD U64MAX)
        = U64MAX :=
  ⟨(C10_sentinel_minimum.1 1 0 [Op.connect 0, Op.disconnect 5 3] (by decide) (by decide)).1,
   C10_sentinel_minimum.2 (Metrics.new 0) 3 (by decide)⟩

end Tarssh
